import Mathlib

/-!
Verification development for `scripts/generate_postage.py`: a single-file,
single-threaded fulfillment pipeline that reads recipient rows from a CSV,
creates one carrier shipment per row, purchases postage, downloads labels,
renders notes, merges label+note documents and writes a reconciliation CSV.

Shallow embedding conventions:
* The external carrier, network, filesystem and PDF collaborators are out of
  scope (per the spec) and are modelled by an `Env` oracle that fixes, per
  index, whether each effectful call raises and which tracking code /
  shipment id the carrier assigns.
* Python exceptions are modelled as `Option String` error components (the
  message) threaded explicitly; `try/except` blocks become `match`es on them.
* A `csv.DictReader` row is an association list from field name to value,
  obtained by zipping the header with the record.  (`restkey`/`restval`
  padding for ragged records and `KeyError` on absent fields are not
  modelled; the theorems about report content assume records that cover the
  header, which is where the Python dict and the zip agree.)
* File contents are not modelled; an artifact is recorded as its
  (index, path) key exactly as the script builds it.
-/

namespace Postage

/-- A `csv.DictReader` row: field name to value, in header order. -/
abbrev Row := List (String × String)

/-- The input file as already-parsed tabular data: a header line and the
data records (raw delimited-text parsing is out of scope per the spec). -/
structure CsvFile where
  header : List String
  records : List (List String)

/-- `iterate_csv`: yield one dict per data record, keyed by the header
(`csv.DictReader`), preserving file order. -/
def iterate_csv (f : CsvFile) : List Row :=
  f.records.map (fun rec => f.header.zip rec)

/-- `row[k]` lookup (first binding wins; rows built from a duplicate-free
header have at most one binding per key, as a Python dict does). -/
def getField : Row → String → String
  | [], _ => ""
  | p :: rest, k => if p.1 = k then p.2 else getField rest k

/-- `row[k] = v` / `dict.update`: replace the binding if the key is present,
otherwise append it (Python dicts keep the original position on overwrite
and append new keys at the end). -/
def setField : Row → String → String → Row
  | [], k, v => [(k, v)]
  | p :: rest, k, v => if p.1 = k then (k, v) :: rest else p :: setField rest k v

/-- `str(index).zfill(3)`. -/
def zfill3 (n : Nat) : String :=
  let s := toString n
  String.mk (List.replicate (3 - s.length) '0') ++ s

/-- `"labels/ROW_{0}_{1}_LABEL.pdf".format(str(index).zfill(3), tracking)`. -/
def labelPath (i : Nat) (tracking : String) : String :=
  "labels/ROW_" ++ zfill3 i ++ "_" ++ tracking ++ "_LABEL.pdf"

/-- `"notes/ROW_{0}_{1}_NOTE.pdf".format(str(index).zfill(3), tracking)`. -/
def notePath (i : Nat) (tracking : String) : String :=
  "notes/ROW_" ++ zfill3 i ++ "_" ++ tracking ++ "_NOTE.pdf"

/-- `"results/ROW_{0}_{1}_LABEL_AND_NOTE.pdf".format(...)`. -/
def lnPath (i : Nat) (tracking : String) : String :=
  "results/ROW_" ++ zfill3 i ++ "_" ++ tracking ++ "_LABEL_AND_NOTE.pdf"

/-- The `to_address` dict passed to `easypost.Shipment.create`. -/
structure DestAddress where
  name : String
  street1 : String
  street2 : String
  city : String
  state : String
  zip : String
  verify_strict : List String
  deriving Inhabited, DecidableEq

/-- Purchase state of a shipment over its lifetime in one run. -/
inductive PState where
  | unpurchased
  | purchased
  | refunded
  deriving Inhabited, DecidableEq

/-- A carrier shipment handle as the script sees it: the creation-time data
plus the mutable purchase state (`tracking_code` is populated by `buy`). -/
structure RtShipment where
  idx : Nat
  id : String
  to_address : DestAddress
  label_size : String
  label_format : String
  tracking_code : Option String
  pstate : PState
  deriving Inhabited, DecidableEq

/-- Oracle for every external effect of one run: which calls raise, and the
identifiers the carrier assigns.  Booleans indexed by shipment/row index. -/
structure Env where
  addressOk : Bool
  parcelOk : Bool
  csvExists : Bool
  header : List String
  records : List (List String)
  buyFails : Nat → Bool
  downloadFails : Nat → Bool
  refundFails : Nat → Bool
  renderFails : Nat → Bool
  mergeFails : Nat → Bool
  reportRowFails : Nat → Bool
  trackingCode : Nat → String
  shipmentId : Nat → String

/-- The row sequence a stage obtains by (re-)reading the input file. -/
def rows (e : Env) : List Row :=
  iterate_csv ⟨e.header, e.records⟩

/-- Python `s[:2].upper()`: the first at-most-two characters, uppercased
(`str.upper` is ASCII uppercasing on the ASCII range, `Char.toUpper`
likewise). -/
def stateNorm (s : String) : String :=
  String.mk ((s.toList.take 2).map Char.toUpper)

/-- One `easypost.Shipment.create(...)` call for the row at index `i`:
destination built from the row's fields, state truncated to two characters
and uppercased (`row["State"][:2].upper()`), strict delivery verification,
fixed 4x6 PDF label options. -/
def mkOne (e : Env) (row : Row) (i : Nat) : RtShipment :=
  { idx := i
    id := e.shipmentId i
    to_address :=
      { name := getField row "SendTo"
        street1 := getField row "Address"
        street2 := getField row "Address2"
        city := getField row "City"
        state := stateNorm (getField row "State")
        zip := getField row "Zip"
        verify_strict := ["delivery"] }
    label_size := "4x6"
    label_format := "PDF"
    tracking_code := none
    pstate := PState.unpurchased }

/-- The `shipments.append(...)` loop body of `generate_shipments`, carrying
the running index. -/
def mkRt (e : Env) : List Row → Nat → List RtShipment
  | [], _ => []
  | r :: rest, i => mkOne e r i :: mkRt e rest (i + 1)

/-- `generate_shipments(address, parcel, csv_path)`: one shipment per row,
index-aligned with the rows. -/
def generate_shipments (e : Env) : List RtShipment :=
  mkRt e (rows e) 0

/-- `shipment.refund()` succeeds iff the shipment was actually purchased and
the carrier does not raise for it. -/
def refundSucceeds (e : Env) (s : RtShipment) : Bool :=
  s.pstate == PState.purchased && !e.refundFails s.idx

/-- The effect of one iteration of the `refund_postage` loop on its
shipment: refunded on success, untouched when the `except` fires. -/
def refundOne (e : Env) (s : RtShipment) : RtShipment :=
  if refundSucceeds e s then { s with pstate := PState.refunded } else s

/-- Result of the refund sweep: final shipments, the indices a refund was
attempted for (in order), and the indices whose failure was only printed. -/
structure RefundOutcome where
  shipments : List RtShipment
  attempts : List Nat
  errorsLogged : List Nat
  deriving DecidableEq

/-- `refund_postage(shipments)`: try to refund each shipment in order; a
failure is printed and the loop `continue`s — it never propagates. -/
def refund_postage (e : Env) : List RtShipment → RefundOutcome
  | [] => ⟨[], [], []⟩
  | s :: rest =>
    let r := refund_postage e rest
    if refundSucceeds e s then
      ⟨{ s with pstate := PState.refunded } :: r.shipments,
        s.idx :: r.attempts, r.errorsLogged⟩
    else
      ⟨s :: r.shipments, s.idx :: r.attempts, s.idx :: r.errorsLogged⟩

/-- `shipment.buy(...)`'s effect on the shipment object: purchased, with the
carrier-assigned tracking code. -/
def purchasedRt (e : Env) (s : RtShipment) : RtShipment :=
  { s with pstate := PState.purchased
           tracking_code := some (e.trackingCode s.idx) }

/-- The `for index, shipment in enumerate(shipments)` loop of
`purchase_postage`: buy, then download and write the label file; the first
raising call stops the loop and identifies the failing shipment (the loop
variable, already mutated by a successful `buy`). -/
def purchaseGo (e : Env) :
    List RtShipment → List RtShipment × List (Nat × String) × Option RtShipment
  | [] => ([], [], none)
  | s :: rest =>
    if e.buyFails s.idx then (s :: rest, [], some s)
    else
      let s1 := purchasedRt e s
      if e.downloadFails s.idx then (s1 :: rest, [], some s1)
      else
        let r := purchaseGo e rest
        (s1 :: r.1, (s.idx, labelPath s.idx (e.trackingCode s.idx)) :: r.2.1, r.2.2)

/-- Result of the purchase stage: final shipments, label files written,
refund attempts made by the in-stage sweep, and — when an exception was
caught — the failing index and the shipment id that was printed. -/
structure PurchaseOutcome where
  shipments : List RtShipment
  labels : List (Nat × String)
  refundAttempts : List Nat
  failedAt : Option Nat
  errId : Option String
  deriving DecidableEq

/-- `purchase_postage(shipments)`: on any exception, print the failing
shipment's id, run `refund_postage` over the whole (mutated) list, and
return normally — the exception is not re-raised. -/
def purchase_postage (e : Env) (shs : List RtShipment) : PurchaseOutcome :=
  let r := purchaseGo e shs
  match r.2.2 with
  | none => ⟨r.1, r.2.1, [], none, none⟩
  | some s =>
    let ro := refund_postage e r.1
    ⟨ro.shipments, r.2.1, ro.attempts, some s.idx, some s.id⟩

/-- `"{0}".format(tracking_code)`: Python renders `None` as `"None"` inside
the artifact file names. -/
def trackingStr (s : RtShipment) : String :=
  match s.tracking_code with
  | some t => t
  | none => "None"

/-- The tracking code as the `csv` module writes it: `None` becomes the
empty cell. -/
def trackingCsv (s : RtShipment) : String :=
  match s.tracking_code with
  | some t => t
  | none => ""

/-- `shipments[index]` with a default (lookups in this file are only used at
indices the accompanying hypotheses prove in range). -/
def rtAt (shs : List RtShipment) (j : Nat) : RtShipment :=
  (shs.get? j).getD default

/-- The tracking string of `shipments[j]`. -/
def trackingStrAt (shs : List RtShipment) (j : Nat) : String :=
  match shs.get? j with
  | some s => trackingStr s
  | none => ""

/-- The `for index, row in enumerate(iterate_csv(csv_path))` loop of
`generate_notes`: look up `shipments[index]` (IndexError aborts), render
(any rendering failure raises), write the note file. -/
def notesGo (e : Env) (shs : List RtShipment) :
    List Row → Nat → List (Nat × String) × Option String
  | [], _ => ([], none)
  | _ :: rest, i =>
    match shs.get? i with
    | none => ([], some "IndexError")
    | some sh =>
      if e.renderFails i then ([], some "RenderError")
      else
        let r := notesGo e shs rest (i + 1)
        ((i, notePath i (trackingStr sh)) :: r.1, r.2)

/-- `generate_notes(shipments, csv_path)`: re-reads the row source. -/
def generate_notes (e : Env) (shs : List RtShipment) :
    List (Nat × String) × Option String :=
  notesGo e shs (rows e) 0

/-- `merge_labels_and_notes(shipments)`: one `pdfjam` invocation per
shipment; a non-zero exit (`check_output`) raises and aborts the loop. -/
def merge_labels_and_notes (e : Env) :
    List RtShipment → List (Nat × String) × Option String
  | [] => ([], none)
  | s :: rest =>
    if e.mergeFails s.idx then ([], some "MergeError")
    else
      let r := merge_labels_and_notes e rest
      ((s.idx, lnPath s.idx (trackingStr s)) :: r.1, r.2)

/-- `row.update({"Tracking Code": shipment.tracking_code,
"Label And Note": label_note_path})`. -/
def updateRow (r : Row) (sh : RtShipment) (i : Nat) : Row :=
  setField (setField r "Tracking Code" (trackingCsv sh))
    "Label And Note" (lnPath i (trackingStr sh))

/-- Content of `results/compiled_results.csv`: `header = none` when the loop
never ran (the file is opened and truncated but nothing is written). -/
structure Report where
  header : Option (List String)
  rows : List (List String)
  deriving DecidableEq

/-- `sorted(row.keys())`: Python's stable ascending sort on strings. -/
def sortKeys (l : List String) : List String :=
  List.insertionSort (fun a b => a ≤ b) l

/-- The `for index, row in enumerate(iterate_csv(csv_path))` loop of
`write_results` after the field names are fixed: look up
`shipments[index]`, update the row, emit its cells in field-name order
(`csv.DictWriter` fills absent fields with `""`). -/
def resultsGo (e : Env) (shs : List RtShipment) (fn : List String) :
    List Row → Nat → List (List String) × Option String
  | [], _ => ([], none)
  | row :: rest, i =>
    match shs.get? i with
    | none => ([], some "IndexError")
    | some sh =>
      if e.reportRowFails i then ([], some "ReportError")
      else
        let r := resultsGo e shs fn rest (i + 1)
        (fn.map (getField (updateRow row sh i)) :: r.1, r.2)

/-- `write_results(shipments, csv_path)`: open/truncate the results file,
then — while processing index 0 — fix the field names as the sorted keys of
the first row with `Tracking Code` and `Label And Note` appended and write
the header, then one data row per input row. -/
def write_results (e : Env) (shs : List RtShipment) : Report × Option String :=
  match rows e with
  | [] => (⟨none, []⟩, none)
  | r0 :: rest =>
    let fn := sortKeys (r0.map Prod.fst) ++ ["Tracking Code", "Label And Note"]
    let r := resultsGo e shs fn (r0 :: rest) 0
    (⟨some fn, r.1⟩, r.2)

/-- Outcome of the post-purchase `try` block of `run` (notes, merges,
report), including the refund sweep its `except` performs. -/
structure PostOutcome where
  shipments : List RtShipment
  noteFiles : List (Nat × String)
  mergeCalls : List (Nat × String)
  report : Option Report
  postError : Option String
  postRefundAttempts : List Nat
  deriving DecidableEq

/-- The `try: generate_notes; merge_labels_and_notes; write_results`
block of `run`: the first raising stage aborts the rest, its message is
printed and `refund_postage` sweeps the full shipment list. -/
def postStages (e : Env) (shs : List RtShipment) : PostOutcome :=
  let notesR := generate_notes e shs
  match notesR.2 with
  | some msg =>
    let ro := refund_postage e shs
    ⟨ro.shipments, notesR.1, [], none, some msg, ro.attempts⟩
  | none =>
    let mergeR := merge_labels_and_notes e shs
    match mergeR.2 with
    | some msg =>
      let ro := refund_postage e shs
      ⟨ro.shipments, notesR.1, mergeR.1, none, some msg, ro.attempts⟩
    | none =>
      let resR := write_results e shs
      match resR.2 with
      | some msg =>
        let ro := refund_postage e shs
        ⟨ro.shipments, notesR.1, mergeR.1, some resR.1, some msg, ro.attempts⟩
      | none => ⟨shs, notesR.1, mergeR.1, some resR.1, none, []⟩

/-- Everything observable about one run past the preliminary checks. -/
structure RunState where
  shipments : List RtShipment
  labelFiles : List (Nat × String)
  purchaseFailedAt : Option Nat
  purchaseErrorShipmentId : Option String
  purchaseRefundAttempts : List Nat
  noteFiles : List (Nat × String)
  mergeCalls : List (Nat × String)
  report : Option Report
  postError : Option String
  postRefundAttempts : List Nat
  deriving DecidableEq

/-- The three ways `run` raises to its caller. -/
inductive RunError where
  | addressError
  | parcelError
  | inputNotFound
  deriving DecidableEq

/-- The body of `run` past the address/parcel/path checks:
`generate_shipments`, `purchase_postage` (which swallows its own failures),
then the guarded notes/merge/report block. -/
def runPipeline (e : Env) : RunState :=
  let po := purchase_postage e (generate_shipments e)
  let post := postStages e po.shipments
  { shipments := post.shipments
    labelFiles := po.labels
    purchaseFailedAt := po.failedAt
    purchaseErrorShipmentId := po.errId
    purchaseRefundAttempts := po.refundAttempts
    noteFiles := post.noteFiles
    mergeCalls := post.mergeCalls
    report := post.report
    postError := post.postError
    postRefundAttempts := post.postRefundAttempts }

/-- `run(from_address_id, parcel_id, csv_path)`: retrieve the origin
address, then the parcel (each raising on a carrier error), only then check
that the csv path exists, then run the pipeline.  Exceptions after the
three checks are handled inside and never reach the caller. -/
def run (e : Env) : Except RunError RunState :=
  if e.addressOk then
    if e.parcelOk then
      if e.csvExists then Except.ok (runPipeline e)
      else Except.error RunError.inputNotFound
    else Except.error RunError.parcelError
  else Except.error RunError.addressError

/-- The field names `write_results` fixes while processing index 0. -/
def fieldNames (e : Env) : List String :=
  match rows e with
  | [] => []
  | r0 :: _ => sortKeys (r0.map Prod.fst) ++ ["Tracking Code", "Label And Note"]

/-- The shipment list as it stands after an all-successful purchase loop. -/
def purchasedShipments (e : Env) : List RtShipment :=
  (generate_shipments e).map (purchasedRt e)

/-! ### Concrete inputs used by witnesses and counterexamples -/

/-- The header fields the spec requires of every input file. -/
def baseHeader : List String :=
  ["Address", "Address2", "CBI Message", "City", "Generic Message",
   "SendTo", "SendingFrom", "State", "Zip"]

/-- A well-formed data record aligned with `baseHeader`. -/
def rowRecord1 : List String :=
  ["1 Main St", "", "hello", "Springfield", "bye", "Alice", "Bob", "ca", "12345"]

/-- A second well-formed data record aligned with `baseHeader`. -/
def rowRecord2 : List String :=
  ["2 Oak Ave", "Apt 9", "shalom", "Shelbyville", "later", "Carol", "Dan", "ny",
   "54321"]

/-- A record whose State field is the single letter `"x"`. -/
def recC8 : List String :=
  ["3 Elm St", "", "m", "Gotham", "g", "Ann", "Bea", "x", "99999"]

/-- A fully healthy environment with an empty record list. -/
def baseEnv : Env :=
  { addressOk := true, parcelOk := true, csvExists := true
    header := baseHeader, records := []
    buyFails := fun _ => false, downloadFails := fun _ => false
    refundFails := fun _ => false, renderFails := fun _ => false
    mergeFails := fun _ => false, reportRowFails := fun _ => false
    trackingCode := fun i => "TRK" ++ toString i
    shipmentId := fun i => "shp" ++ toString i }

/-- Two rows, purchase raises while buying shipment 1. -/
def eC1 : Env :=
  { baseEnv with records := [rowRecord1, rowRecord2], buyFails := fun i => i == 1 }

/-- Two rows, purchase raises while buying shipment 1 (C2's input). -/
def eC2 : Env :=
  { baseEnv with records := [rowRecord1, rowRecord2], buyFails := fun i => i == 1 }

/-- One row, all purchases succeed, note rendering raises. -/
def eC3 : Env :=
  { baseEnv with records := [rowRecord1], renderFails := fun _ => true }

/-- Two rows, every stage healthy. -/
def eC4 : Env := { baseEnv with records := [rowRecord1, rowRecord2] }

/-- The input path is missing and the origin-address resolution also fails. -/
def eC6 : Env := { baseEnv with addressOk := false, csvExists := false }

/-- The input path is missing; both carrier resolutions succeed. -/
def eC6w : Env := { baseEnv with csvExists := false }

/-- Two rows, every stage healthy (C7's input). -/
def eC7 : Env := { baseEnv with records := [rowRecord1, rowRecord2] }

/-- One row whose State field is `"x"`. -/
def eC8 : Env := { baseEnv with records := [recC8] }

/-! ### Helper lemmas about the embedded operations -/

@[simp] lemma purchasedRt_idx (e : Env) (s : RtShipment) :
    (purchasedRt e s).idx = s.idx := rfl

@[simp] lemma purchasedRt_id (e : Env) (s : RtShipment) :
    (purchasedRt e s).id = s.id := rfl

@[simp] lemma mkOne_idx (e : Env) (r : Row) (i : Nat) :
    (mkOne e r i).idx = i := rfl

@[simp] lemma mkOne_id (e : Env) (r : Row) (i : Nat) :
    (mkOne e r i).id = e.shipmentId i := rfl

lemma getField_setField_self (r : Row) (k v : String) :
    getField (setField r k v) k = v := by
  induction r with
  | nil => simp [setField, getField]
  | cons p rest ih =>
    by_cases h : p.1 = k
    · simp [setField, getField, h]
    · simp [setField, getField, h, ih]

lemma getField_setField_ne (r : Row) (k k' v : String) (h : k' ≠ k) :
    getField (setField r k v) k' = getField r k' := by
  induction r with
  | nil => simp [setField, getField, Ne.symm h]
  | cons p rest ih =>
    by_cases hp : p.1 = k
    · subst hp
      simp [setField, getField, Ne.symm h]
    · by_cases hp' : p.1 = k'
      · simp [setField, getField, hp, hp', h]
      · simp [setField, getField, hp, hp', ih]

lemma mkRt_length (e : Env) (l : List Row) (i0 : Nat) :
    (mkRt e l i0).length = l.length := by
  induction l generalizing i0 with
  | nil => rfl
  | cons r rest ih => simp [mkRt, ih]

lemma mkRt_get? (e : Env) (l : List Row) (i0 j : Nat) :
    (mkRt e l i0).get? j = (l.get? j).map (fun r => mkOne e r (i0 + j)) := by
  induction l generalizing i0 j with
  | nil => simp [mkRt]
  | cons r rest ih =>
    cases j with
    | zero => simp [mkRt]
    | succ j' =>
      simp only [mkRt, List.get?_cons_succ, ih]
      have : i0 + 1 + j' = i0 + (j' + 1) := by omega
      rw [this]

lemma mkRt_append (e : Env) (a b : List Row) (i0 : Nat) :
    mkRt e (a ++ b) i0 = mkRt e a i0 ++ mkRt e b (i0 + a.length) := by
  induction a generalizing i0 with
  | nil => simp [mkRt]
  | cons r rest ih =>
    show mkOne e r i0 :: mkRt e (rest ++ b) (i0 + 1) =
      mkOne e r i0 :: (mkRt e rest (i0 + 1) ++ mkRt e b (i0 + (r :: rest).length))
    rw [ih]
    have h2 : i0 + 1 + rest.length = i0 + (r :: rest).length := by
      simp only [List.length_cons]; omega
    rw [h2]

lemma mkRt_idx (e : Env) (l : List Row) (i0 : Nat) :
    (mkRt e l i0).map (fun s => s.idx) = List.range' i0 l.length := by
  induction l generalizing i0 with
  | nil => simp [mkRt]
  | cons r rest ih => simp [mkRt, List.range'_succ, ih]

lemma mkRt_mem_idx (e : Env) (s : RtShipment) :
    ∀ (l : List Row) (i0 : Nat), s ∈ mkRt e l i0 →
      i0 ≤ s.idx ∧ s.idx < i0 + l.length := by
  intro l
  induction l with
  | nil => intro i0 h; simp [mkRt] at h
  | cons r rest ih =>
    intro i0 h
    rcases (List.mem_cons).1 h with h1 | h1
    · subst h1; simp
    · have h2 := ih (i0 + 1) h1
      constructor
      · omega
      · simp only [List.length_cons]; omega

lemma generate_shipments_length (e : Env) :
    (generate_shipments e).length = (rows e).length :=
  mkRt_length e (rows e) 0

lemma generate_shipments_mem_idx (e : Env) (s : RtShipment)
    (h : s ∈ generate_shipments e) : s.idx < (rows e).length := by
  have h2 := mkRt_mem_idx e s (rows e) 0 h
  omega

lemma purchasedShipments_length (e : Env) :
    (purchasedShipments e).length = (rows e).length := by
  simp [purchasedShipments, generate_shipments_length]

lemma purchasedShipments_idx (e : Env) :
    (purchasedShipments e).map (fun s => s.idx) = List.range (rows e).length := by
  simp only [purchasedShipments, List.map_map]
  have h1 : ((fun s => s.idx) ∘ purchasedRt e) = fun s : RtShipment => s.idx := by
    funext s; simp [Function.comp]
  rw [h1, generate_shipments, mkRt_idx, List.range_eq_range']

lemma refund_postage_spec (e : Env) (shs : List RtShipment) :
    refund_postage e shs =
      ⟨shs.map (refundOne e), shs.map (fun s => s.idx),
        (shs.filter (fun s => !refundSucceeds e s)).map (fun s => s.idx)⟩ := by
  induction shs with
  | nil => rfl
  | cons s rest ih =>
    by_cases h : refundSucceeds e s = true
    · simp [refund_postage, ih, h, refundOne, List.filter_cons]
    · simp only [Bool.not_eq_true] at h
      simp [refund_postage, ih, h, refundOne, List.filter_cons]

lemma purchaseGo_ok (e : Env) (shs : List RtShipment)
    (h : ∀ s ∈ shs, e.buyFails s.idx = false ∧ e.downloadFails s.idx = false) :
    purchaseGo e shs =
      (shs.map (purchasedRt e),
        shs.map (fun s => (s.idx, labelPath s.idx (e.trackingCode s.idx))),
        none) := by
  induction shs with
  | nil => rfl
  | cons s rest ih =>
    have hs := h s (List.mem_cons_self s rest)
    have hrest := fun t ht => h t (List.mem_cons_of_mem s ht)
    simp [purchaseGo, hs.1, hs.2, ih hrest]

lemma purchaseGo_fail (e : Env) (pre : List RtShipment) (s : RtShipment)
    (post : List RtShipment)
    (hpre : ∀ t ∈ pre, e.buyFails t.idx = false ∧ e.downloadFails t.idx = false)
    (hs : e.buyFails s.idx = true ∨ e.downloadFails s.idx = true) :
    purchaseGo e (pre ++ s :: post) =
      (pre.map (purchasedRt e) ++
          (if e.buyFails s.idx then s else purchasedRt e s) :: post,
        pre.map (fun t => (t.idx, labelPath t.idx (e.trackingCode t.idx))),
        some (if e.buyFails s.idx then s else purchasedRt e s)) := by
  induction pre with
  | nil =>
    by_cases hb : e.buyFails s.idx = true
    · simp [purchaseGo, hb]
    · simp only [Bool.not_eq_true] at hb
      have hd : e.downloadFails s.idx = true := by
        rcases hs with h | h
        · rw [hb] at h; exact absurd h (by simp)
        · exact h
      simp [purchaseGo, hb, hd]
  | cons t rest ih =>
    have ht := hpre t (List.mem_cons_self t rest)
    have hrest := fun u hu => hpre u (List.mem_cons_of_mem t hu)
    simp [purchaseGo, ht.1, ht.2, ih hrest]

lemma purchase_postage_ok (e : Env) (shs : List RtShipment)
    (h : ∀ s ∈ shs, e.buyFails s.idx = false ∧ e.downloadFails s.idx = false) :
    purchase_postage e shs =
      ⟨shs.map (purchasedRt e),
        shs.map (fun s => (s.idx, labelPath s.idx (e.trackingCode s.idx))),
        [], none, none⟩ := by
  simp [purchase_postage, purchaseGo_ok e shs h]

lemma purchase_postage_fail (e : Env) (pre : List RtShipment) (s : RtShipment)
    (post : List RtShipment)
    (hpre : ∀ t ∈ pre, e.buyFails t.idx = false ∧ e.downloadFails t.idx = false)
    (hs : e.buyFails s.idx = true ∨ e.downloadFails s.idx = true) :
    purchase_postage e (pre ++ s :: post) =
      ⟨((pre.map (purchasedRt e) ++
            (if e.buyFails s.idx then s else purchasedRt e s) :: post).map
          (refundOne e)),
        pre.map (fun t => (t.idx, labelPath t.idx (e.trackingCode t.idx))),
        (pre.map (purchasedRt e) ++
            (if e.buyFails s.idx then s else purchasedRt e s) :: post).map
          (fun t => t.idx),
        some s.idx, some s.id⟩ := by
  have hgo := purchaseGo_fail e pre s post hpre hs
  by_cases hb : e.buyFails s.idx = true
  · simp only [hb, if_pos] at hgo ⊢
    simp [purchase_postage, hgo, refund_postage_spec]
  · simp only [Bool.not_eq_true] at hb
    simp only [hb, Bool.false_eq_true, if_false] at hgo ⊢
    simp [purchase_postage, hgo, refund_postage_spec]

lemma notesGo_ok (e : Env) (shs : List RtShipment) :
    ∀ (rws : List Row) (i0 : Nat), i0 + rws.length ≤ shs.length →
      (∀ j, i0 ≤ j → j < i0 + rws.length → e.renderFails j = false) →
      notesGo e shs rws i0 =
        ((List.enumFrom i0 rws).map
            (fun p => (p.1, notePath p.1 (trackingStrAt shs p.1))), none) := by
  intro rws
  induction rws with
  | nil => intro i0 _ _; simp [notesGo]
  | cons r rest ih =>
    intro i0 hlen hok
    have hi0 : i0 < shs.length := by simp only [List.length_cons] at hlen; omega
    have hget : shs[i0]? = some shs[i0] := List.getElem?_eq_getElem hi0
    have hr : e.renderFails i0 = false :=
      hok i0 (le_refl i0) (by simp only [List.length_cons]; omega)
    have hrec := ih (i0 + 1)
      (by simp only [List.length_cons] at hlen; omega)
      (fun j h1 h2 => hok j (by omega) (by simp only [List.length_cons]; omega))
    simp [notesGo, hget, hr, hrec, List.enumFrom, trackingStrAt]

lemma mergeGo_ok (e : Env) (shs : List RtShipment)
    (h : ∀ s ∈ shs, e.mergeFails s.idx = false) :
    merge_labels_and_notes e shs =
      (shs.map (fun s => (s.idx, lnPath s.idx (trackingStr s))), none) := by
  induction shs with
  | nil => rfl
  | cons s rest ih =>
    have hs := h s (List.mem_cons_self s rest)
    have hrest := fun t ht => h t (List.mem_cons_of_mem s ht)
    simp [merge_labels_and_notes, hs, ih hrest]

lemma resultsGo_ok (e : Env) (shs : List RtShipment) (fn : List String) :
    ∀ (rws : List Row) (i0 : Nat), i0 + rws.length ≤ shs.length →
      (∀ j, i0 ≤ j → j < i0 + rws.length → e.reportRowFails j = false) →
      resultsGo e shs fn rws i0 =
        ((List.enumFrom i0 rws).map
            (fun p => fn.map (getField (updateRow p.2 (rtAt shs p.1) p.1))),
          none) := by
  intro rws
  induction rws with
  | nil => intro i0 _ _; simp [resultsGo]
  | cons r rest ih =>
    intro i0 hlen hok
    have hi0 : i0 < shs.length := by simp only [List.length_cons] at hlen; omega
    have hget : shs[i0]? = some shs[i0] := List.getElem?_eq_getElem hi0
    have hr : e.reportRowFails i0 = false :=
      hok i0 (le_refl i0) (by simp only [List.length_cons]; omega)
    have hrec := ih (i0 + 1)
      (by simp only [List.length_cons] at hlen; omega)
      (fun j h1 h2 => hok j (by omega) (by simp only [List.length_cons]; omega))
    simp [resultsGo, hget, hr, hrec, List.enumFrom, rtAt]

lemma resultsGo_err (e : Env) (shs : List RtShipment) (fn : List String) :
    ∀ (rws : List Row) (i0 : Nat) (msg : String),
      (resultsGo e shs fn rws i0).2 = some msg →
      (resultsGo e shs fn rws i0).1.length < rws.length := by
  intro rws
  induction rws with
  | nil => intro i0 msg h; simp [resultsGo] at h
  | cons r rest ih =>
    intro i0 msg h
    cases hget : shs[i0]? with
    | none => simp [resultsGo, hget]
    | some sh =>
      by_cases hr : e.reportRowFails i0 = true
      · simp [resultsGo, hget, hr]
      · simp only [Bool.not_eq_true] at hr
        simp only [resultsGo, List.get?_eq_getElem?, hget, hr, Bool.false_eq_true,
          if_false] at h ⊢
        have := ih (i0 + 1) msg h
        simp only [List.length_cons]
        omega

lemma write_results_ok (e : Env) (shs : List RtShipment)
    (hlen : (rows e).length ≤ shs.length)
    (hok : ∀ j, j < (rows e).length → e.reportRowFails j = false) :
    write_results e shs =
      (⟨(rows e).head?.map (fun _ => fieldNames e),
          (List.enumFrom 0 (rows e)).map
            (fun p => (fieldNames e).map (getField (updateRow p.2 (rtAt shs p.1) p.1)))⟩,
        none) := by
  cases hrows : rows e with
  | nil => simp [write_results, hrows]
  | cons r0 rest =>
    have hgo := resultsGo_ok e shs
      (sortKeys (r0.map Prod.fst) ++ ["Tracking Code", "Label And Note"])
      (r0 :: rest) 0
      (by rw [← hrows]; simpa using hlen)
      (by rw [← hrows]; simpa using hok)
    have hfn : fieldNames e
        = sortKeys (r0.map Prod.fst) ++ ["Tracking Code", "Label And Note"] := by
      simp [fieldNames, hrows]
    simp [write_results, hrows, hgo, hfn]

lemma write_results_err (e : Env) (shs : List RtShipment) (msg : String)
    (h : (write_results e shs).2 = some msg) :
    (write_results e shs).1.rows.length < (rows e).length := by
  cases hrows : rows e with
  | nil => simp [write_results, hrows] at h
  | cons r0 rest =>
    simp only [write_results, hrows] at h ⊢
    have := resultsGo_err e shs
      (sortKeys (r0.map Prod.fst) ++ ["Tracking Code", "Label And Note"])
      (r0 :: rest) 0 msg h
    simpa using this

lemma postStages_ok (e : Env) (shs : List RtShipment)
    (h1 : (generate_notes e shs).2 = none)
    (h2 : (merge_labels_and_notes e shs).2 = none)
    (h3 : (write_results e shs).2 = none) :
    postStages e shs =
      ⟨shs, (generate_notes e shs).1, (merge_labels_and_notes e shs).1,
        some (write_results e shs).1, none, []⟩ := by
  simp [postStages, h1, h2, h3]

lemma postStages_err (e : Env) (shs : List RtShipment)
    (h : (postStages e shs).postError.isSome = true) :
    (postStages e shs).postRefundAttempts = shs.map (fun s => s.idx) ∧
      (∀ rep, (postStages e shs).report = some rep →
        (write_results e shs).2.isSome = true ∧ rep = (write_results e shs).1) := by
  cases hn : (generate_notes e shs).2 with
  | some msg =>
    simp [postStages, hn, refund_postage_spec]
  | none =>
    cases hm : (merge_labels_and_notes e shs).2 with
    | some msg =>
      simp [postStages, hn, hm, refund_postage_spec]
    | none =>
      cases hw : (write_results e shs).2 with
      | some msg =>
        constructor
        · simp [postStages, hn, hm, hw, refund_postage_spec]
        · intro rep hrep
          simp only [postStages, hn, hm, hw] at hrep
          refine ⟨by simp [hw], ?_⟩
          exact (Option.some.inj hrep).symm
      | none =>
        simp [postStages, hn, hm, hw] at h

lemma runPipeline_purchaseFailedAt (e : Env) :
    (runPipeline e).purchaseFailedAt
      = (purchase_postage e (generate_shipments e)).failedAt := rfl

lemma runPipeline_purchaseErrId (e : Env) :
    (runPipeline e).purchaseErrorShipmentId
      = (purchase_postage e (generate_shipments e)).errId := rfl

lemma runPipeline_purchaseRefunds (e : Env) :
    (runPipeline e).purchaseRefundAttempts
      = (purchase_postage e (generate_shipments e)).refundAttempts := rfl

lemma runPipeline_post (e : Env) :
    (runPipeline e).postError
        = (postStages e (purchase_postage e (generate_shipments e)).shipments).postError ∧
      (runPipeline e).postRefundAttempts
        = (postStages e (purchase_postage e (generate_shipments e)).shipments).postRefundAttempts ∧
      (runPipeline e).report
        = (postStages e (purchase_postage e (generate_shipments e)).shipments).report ∧
      (runPipeline e).shipments
        = (postStages e (purchase_postage e (generate_shipments e)).shipments).shipments ∧
      (runPipeline e).noteFiles
        = (postStages e (purchase_postage e (generate_shipments e)).shipments).noteFiles ∧
      (runPipeline e).mergeCalls
        = (postStages e (purchase_postage e (generate_shipments e)).shipments).mergeCalls :=
  ⟨rfl, rfl, rfl, rfl, rfl, rfl⟩

lemma run_ok (e : Env) (hA : e.addressOk = true) (hP : e.parcelOk = true)
    (hC : e.csvExists = true) : run e = Except.ok (runPipeline e) := by
  simp [run, hA, hP, hC]

lemma purchasedShipments_mem_idx (e : Env) (s : RtShipment)
    (h : s ∈ purchasedShipments e) : s.idx < (rows e).length := by
  simp only [purchasedShipments, List.mem_map] at h
  obtain ⟨t, ht, rfl⟩ := h
  simpa using generate_shipments_mem_idx e t ht

lemma runPipeline_success (e : Env)
    (hbuy : ∀ j, j < (rows e).length →
      e.buyFails j = false ∧ e.downloadFails j = false)
    (hrender : ∀ j, j < (rows e).length → e.renderFails j = false)
    (hmerge : ∀ j, j < (rows e).length → e.mergeFails j = false)
    (hreport : ∀ j, j < (rows e).length → e.reportRowFails j = false) :
    runPipeline e =
      { shipments := purchasedShipments e
        labelFiles := (generate_shipments e).map
          (fun s => (s.idx, labelPath s.idx (e.trackingCode s.idx)))
        purchaseFailedAt := none
        purchaseErrorShipmentId := none
        purchaseRefundAttempts := []
        noteFiles := (List.enumFrom 0 (rows e)).map
          (fun p => (p.1, notePath p.1 (trackingStrAt (purchasedShipments e) p.1)))
        mergeCalls := (purchasedShipments e).map
          (fun s => (s.idx, lnPath s.idx (trackingStr s)))
        report := some (write_results e (purchasedShipments e)).1
        postError := none
        postRefundAttempts := [] } := by
  have hpo : purchase_postage e (generate_shipments e) =
      ⟨purchasedShipments e,
        (generate_shipments e).map
          (fun s => (s.idx, labelPath s.idx (e.trackingCode s.idx))),
        [], none, none⟩ :=
    purchase_postage_ok e (generate_shipments e)
      (fun s hs => hbuy s.idx (generate_shipments_mem_idx e s hs))
  have hlen : (rows e).length ≤ (purchasedShipments e).length := by
    rw [purchasedShipments_length]
  have hnotes : generate_notes e (purchasedShipments e) =
      ((List.enumFrom 0 (rows e)).map
        (fun p => (p.1, notePath p.1 (trackingStrAt (purchasedShipments e) p.1))),
        none) := by
    have := notesGo_ok e (purchasedShipments e) (rows e) 0
      (by simpa using hlen) (fun j _ h2 => hrender j (by simpa using h2))
    simpa [generate_notes] using this
  have hmerges : merge_labels_and_notes e (purchasedShipments e) =
      ((purchasedShipments e).map (fun s => (s.idx, lnPath s.idx (trackingStr s))),
        none) :=
    mergeGo_ok e (purchasedShipments e)
      (fun s hs => hmerge s.idx (purchasedShipments_mem_idx e s hs))
  have hwr : (write_results e (purchasedShipments e)).2 = none := by
    rw [write_results_ok e (purchasedShipments e) hlen hreport]
  have hps := postStages_ok e (purchasedShipments e)
    (by rw [hnotes]) (by rw [hmerges]) hwr
  show runPipeline e = _
  rw [runPipeline]
  simp only [hpo, hps, hnotes, hmerges]

@[simp] lemma refundOne_idx (e : Env) (u : RtShipment) :
    (refundOne e u).idx = u.idx := by
  unfold refundOne; split <;> rfl

@[simp] lemma purchasedRt_pstate (e : Env) (u : RtShipment) :
    (purchasedRt e u).pstate = PState.purchased := rfl

lemma refundOne_of_purchased (e : Env) (u : RtShipment)
    (h : e.refundFails u.idx = false) (hp : u.pstate = PState.purchased) :
    (refundOne e u).pstate = PState.refunded := by
  unfold refundOne refundSucceeds
  simp [hp, h]

lemma refundOne_of_unpurchased (e : Env) (u : RtShipment)
    (hp : u.pstate ≠ PState.purchased) : refundOne e u = u := by
  unfold refundOne refundSucceeds
  simp [beq_iff_eq, hp]

lemma mkRt_mem_pstate (e : Env) :
    ∀ (l : List Row) (i0 : Nat) (s : RtShipment), s ∈ mkRt e l i0 →
      s.pstate = PState.unpurchased := by
  intro l
  induction l with
  | nil => intro i0 s h; simp [mkRt] at h
  | cons r rest ih =>
    intro i0 s h
    rcases (List.mem_cons).1 h with h1 | h1
    · subst h1; rfl
    · exact ih (i0 + 1) s h1

lemma get?_pstate_of_mem (l : List RtShipment) (j : Nat) (hj : j < l.length)
    (p : PState) (hall : ∀ u ∈ l, u.pstate = p) :
    (l.get? j).map RtShipment.pstate = some p := by
  rw [List.get?_eq_get hj]
  simp only [Option.map_some']
  exact congrArg some (hall _ (List.get_mem l j hj))

lemma generate_shipments_split (e : Env) (k : Nat) (hk : k < (rows e).length) :
    generate_shipments e =
      mkRt e ((rows e).take k) 0 ++
        mkOne e ((rows e).get ⟨k, hk⟩) k ::
          mkRt e ((rows e).drop (k + 1)) (k + 1) := by
  have htk : (List.take k (rows e)).length = k := by
    rw [List.length_take]; exact Nat.min_eq_left (le_of_lt hk)
  conv_lhs => rw [generate_shipments, ← List.take_append_drop k (rows e)]
  rw [mkRt_append]
  congr 1
  rw [List.drop_eq_getElem_cons hk]
  simp [mkRt, htk, List.get_eq_getElem]

lemma take_mkRt_ok (e : Env) (k : Nat) (hk : k < (rows e).length)
    (hpre : ∀ j, j < k → e.buyFails j = false ∧ e.downloadFails j = false) :
    ∀ t ∈ mkRt e ((rows e).take k) 0,
      e.buyFails t.idx = false ∧ e.downloadFails t.idx = false := by
  intro t ht
  have h2 := mkRt_mem_idx e t _ _ ht
  have htk : (List.take k (rows e)).length = k := by
    rw [List.length_take]; exact Nat.min_eq_left (le_of_lt hk)
  exact hpre t.idx (by omega)

lemma purchase_postage_fail_at (e : Env) (k : Nat) (hk : k < (rows e).length)
    (hpre : ∀ j, j < k → e.buyFails j = false ∧ e.downloadFails j = false)
    (hfail : e.buyFails k = true ∨ e.downloadFails k = true) :
    (purchase_postage e (generate_shipments e)).failedAt = some k ∧
      (purchase_postage e (generate_shipments e)).errId
        = some (e.shipmentId k) := by
  rw [generate_shipments_split e k hk]
  rw [purchase_postage_fail e _ _ _ (take_mkRt_ok e k hk hpre) (by simpa using hfail)]
  simp

lemma range'_glue (k m n : Nat) (h : k + 1 + m = n) :
    List.range' 0 k ++ k :: List.range' (k + 1) m = List.range n := by
  have h1 : k :: List.range' (k + 1) m = List.range' k (m + 1) := by
    rw [List.range'_succ]
  rw [h1]
  have h2 := List.range'_append 0 k (m + 1) 1
  simp only [Nat.one_mul, Nat.zero_add] at h2
  rw [h2, List.range_eq_range']
  congr 1
  omega

@[simp] lemma mkOne_pstate (e : Env) (r : Row) (i : Nat) :
    (mkOne e r i).pstate = PState.unpurchased := rfl

lemma runPipeline_buyFail (e : Env) (k : Nat) (hk : k < (rows e).length)
    (hpre : ∀ j, j < k → e.buyFails j = false ∧ e.downloadFails j = false)
    (hbk : e.buyFails k = true)
    (hrefund : ∀ j, e.refundFails j = false)
    (hrender : ∀ j, j < (rows e).length → e.renderFails j = false)
    (hmerge : ∀ j, j < (rows e).length → e.mergeFails j = false)
    (hreport : ∀ j, j < (rows e).length → e.reportRowFails j = false) :
    (runPipeline e).purchaseFailedAt = some k ∧
    (runPipeline e).purchaseErrorShipmentId = some (e.shipmentId k) ∧
    (runPipeline e).purchaseRefundAttempts = List.range (rows e).length ∧
    (runPipeline e).shipments.length = (rows e).length ∧
    (∀ j, j < (rows e).length →
      ((runPipeline e).shipments.get? j).map RtShipment.pstate
        = some (if j < k then PState.refunded else PState.unpurchased)) ∧
    (runPipeline e).noteFiles.length = (rows e).length ∧
    (runPipeline e).mergeCalls.length = (rows e).length ∧
    (∃ rep, (runPipeline e).report = some rep ∧
      rep.rows.length = (rows e).length) ∧
    (runPipeline e).postError = none := by
  have htk : (List.take k (rows e)).length = k := by
    rw [List.length_take]; exact Nat.min_eq_left (le_of_lt hk)
  have hdk : (List.drop (k + 1) (rows e)).length = (rows e).length - (k + 1) :=
    List.length_drop _ _
  set pre := mkRt e ((rows e).take k) 0 with hpre_def
  set s0 := mkOne e ((rows e).get ⟨k, hk⟩) k with hs0_def
  set post := mkRt e ((rows e).drop (k + 1)) (k + 1) with hpost_def
  have hs0idx : s0.idx = k := rfl
  have hs0p : s0.pstate = PState.unpurchased := rfl
  set shsMid := pre.map (purchasedRt e) ++ s0 :: post with hshsMid_def
  set shsF := shsMid.map (refundOne e) with hshsF_def
  have hprelen : pre.length = k := by rw [hpre_def, mkRt_length, htk]
  have hpostlen : post.length = (rows e).length - (k + 1) := by
    rw [hpost_def, mkRt_length, hdk]
  have hmidlen : shsMid.length = (rows e).length := by
    rw [hshsMid_def]
    simp only [List.length_append, List.length_map, List.length_cons]
    omega
  have hflen : shsF.length = (rows e).length := by
    rw [hshsF_def, List.length_map, hmidlen]
  -- every index in the mid list is in range
  have hmid_idx : ∀ u ∈ shsMid, u.idx < (rows e).length := by
    intro u hu
    rw [hshsMid_def] at hu
    rcases List.mem_append.1 hu with h1 | h1
    · obtain ⟨v, hv, rfl⟩ := List.mem_map.1 h1
      have h2 := mkRt_mem_idx e v _ _ hv
      simp only [purchasedRt_idx]
      omega
    · rcases (List.mem_cons).1 h1 with h2 | h2
      · subst h2; omega
      · have h3 := mkRt_mem_idx e u _ _ h2
        omega
  have hf_idx : ∀ u ∈ shsF, u.idx < (rows e).length := by
    intro u hu
    rw [hshsF_def] at hu
    obtain ⟨v, hv, rfl⟩ := List.mem_map.1 hu
    simpa using hmid_idx v hv
  -- the purchase stage outcome
  have hpp := purchase_postage_fail e pre s0 post (take_mkRt_ok e k hk hpre)
    (Or.inl (by rw [hs0idx]; exact hbk))
  rw [show (if e.buyFails s0.idx = true then s0 else purchasedRt e s0) = s0 by
    rw [hs0idx, hbk]; simp] at hpp
  have hpo : purchase_postage e (generate_shipments e) =
      ⟨shsF, pre.map (fun t => (t.idx, labelPath t.idx (e.trackingCode t.idx))),
        shsMid.map (fun t => t.idx), some s0.idx, some s0.id⟩ := by
    rw [generate_shipments_split e k hk]
    exact hpp
  -- post stages all succeed over the refunded list
  have hnotes : generate_notes e shsF =
      ((List.enumFrom 0 (rows e)).map
        (fun p => (p.1, notePath p.1 (trackingStrAt shsF p.1))), none) := by
    have := notesGo_ok e shsF (rows e) 0
      (by omega) (fun j _ h2 => hrender j (by omega))
    simpa [generate_notes] using this
  have hmerges : merge_labels_and_notes e shsF =
      (shsF.map (fun t => (t.idx, lnPath t.idx (trackingStr t))), none) :=
    mergeGo_ok e shsF (fun t ht => hmerge t.idx (hf_idx t ht))
  have hwr := write_results_ok e shsF (by omega) hreport
  have hps := postStages_ok e shsF
    (by rw [hnotes]) (by rw [hmerges]) (by rw [hwr])
  have hrp : runPipeline e =
      { shipments := shsF
        labelFiles := pre.map (fun t => (t.idx, labelPath t.idx (e.trackingCode t.idx)))
        purchaseFailedAt := some s0.idx
        purchaseErrorShipmentId := some s0.id
        purchaseRefundAttempts := shsMid.map (fun t => t.idx)
        noteFiles := (List.enumFrom 0 (rows e)).map
          (fun p => (p.1, notePath p.1 (trackingStrAt shsF p.1)))
        mergeCalls := shsF.map (fun t => (t.idx, lnPath t.idx (trackingStr t)))
        report := some (write_results e shsF).1
        postError := none
        postRefundAttempts := [] } := by
    rw [runPipeline]
    simp only [hpo, hps, hnotes, hmerges]
  -- the refund attempts cover every index 0..N-1
  have hatt : shsMid.map (fun t => t.idx) = List.range (rows e).length := by
    rw [hshsMid_def]
    rw [List.map_append, List.map_cons, List.map_map]
    have hA : pre.map ((fun t : RtShipment => t.idx) ∘ purchasedRt e)
        = List.range' 0 k := by
      have : ((fun t : RtShipment => t.idx) ∘ purchasedRt e)
          = fun t : RtShipment => t.idx := by
        funext t; simp [Function.comp]
      rw [this, hpre_def, mkRt_idx, htk]
    have hB : post.map (fun t : RtShipment => t.idx)
        = List.range' (k + 1) ((rows e).length - (k + 1)) := by
      rw [hpost_def, mkRt_idx, hdk]
    rw [hA, hB, hs0idx]
    exact range'_glue k ((rows e).length - (k + 1)) (rows e).length (by omega)
  -- per-index purchase states after the sweep
  have hstates : ∀ j, j < (rows e).length →
      (shsF.get? j).map RtShipment.pstate
        = some (if j < k then PState.refunded else PState.unpurchased) := by
    intro j hj
    have hfsplit : shsF = (pre.map (purchasedRt e)).map (refundOne e) ++
        refundOne e s0 :: post.map (refundOne e) := by
      rw [hshsF_def, hshsMid_def, List.map_append, List.map_cons]
    have hs0r : refundOne e s0 = s0 :=
      refundOne_of_unpurchased e s0 (by rw [hs0p]; exact fun h => by cases h)
    have hAlen : ((pre.map (purchasedRt e)).map (refundOne e)).length = k := by
      simp [hprelen]
    by_cases hjk : j < k
    · rw [if_pos hjk, hfsplit]
      rw [List.get?_append (by omega)]
      refine get?_pstate_of_mem _ j (by omega) PState.refunded ?_
      intro u hu
      obtain ⟨v, hv, rfl⟩ := List.mem_map.1 hu
      obtain ⟨w, hw, rfl⟩ := List.mem_map.1 hv
      exact refundOne_of_purchased e _ (by simpa using hrefund w.idx) rfl
    · rw [if_neg hjk, hfsplit]
      rw [List.get?_append_right (by omega)]
      rcases Nat.lt_or_ge k j with hjk2 | hjk2
      · have hsub : j - ((pre.map (purchasedRt e)).map (refundOne e)).length
            = (j - k - 1) + 1 := by rw [hAlen]; omega
        rw [hsub, List.get?_cons_succ]
        refine get?_pstate_of_mem _ _ (by simp [hpostlen]; omega)
          PState.unpurchased ?_
        intro u hu
        obtain ⟨v, hv, rfl⟩ := List.mem_map.1 hu
        have hvp := mkRt_mem_pstate e _ _ v hv
        rw [refundOne_of_unpurchased e v (by rw [hvp]; exact fun h => by cases h)]
        exact hvp
      · have hjeq : j = k := by omega
        have hsub : j - ((pre.map (purchasedRt e)).map (refundOne e)).length = 0 := by
          rw [hAlen]; omega
        rw [hsub, List.get?_cons_zero, hs0r]
        simp [hs0p]
  -- the report that was written has one row per input row
  have hreplen : (write_results e shsF).1.rows.length = (rows e).length := by
    rw [hwr]
    simp [List.enumFrom_length]
  refine ⟨?_, ?_, ?_, ?_, ?_, ?_, ?_, ?_, ?_⟩
  · rw [hrp]; exact congrArg some hs0idx
  · rw [hrp]; rfl
  · rw [hrp]; exact hatt
  · rw [hrp]; exact hflen
  · intro j hj; rw [hrp]; exact hstates j hj
  · rw [hrp]; simp [List.enumFrom_length]
  · rw [hrp]; simp [hflen]
  · exact ⟨(write_results e shsF).1, by rw [hrp], hreplen⟩
  · rw [hrp]

lemma updated_getField_TC (r : Row) (sh : RtShipment) (i : Nat) :
    getField (updateRow r sh i) "Tracking Code" = trackingCsv sh := by
  unfold updateRow
  rw [getField_setField_ne _ _ _ _ (by decide), getField_setField_self]

lemma updated_getField_LAN (r : Row) (sh : RtShipment) (i : Nat) :
    getField (updateRow r sh i) "Label And Note" = lnPath i (trackingStr sh) :=
  getField_setField_self _ _ _

lemma updated_getField_other (r : Row) (sh : RtShipment) (i : Nat) (f : String)
    (h1 : f ≠ "Tracking Code") (h2 : f ≠ "Label And Note") :
    getField (updateRow r sh i) f = getField r f := by
  unfold updateRow
  rw [getField_setField_ne _ _ _ _ h2, getField_setField_ne _ _ _ _ h1]

lemma purchasedShipments_get? (e : Env) (i : Nat) (r : Row)
    (hget : (rows e).get? i = some r) :
    (purchasedShipments e).get? i = some (purchasedRt e (mkOne e r i)) := by
  rw [purchasedShipments, List.get?_map, generate_shipments, mkRt_get?, hget]
  simp

lemma fieldNames_eq (e : Env) (r0 : Row) (rest : List Row)
    (h : rows e = r0 :: rest) :
    fieldNames e
      = sortKeys (r0.map Prod.fst) ++ ["Tracking Code", "Label And Note"] := by
  simp [fieldNames, h]

lemma write_results_success_row (e : Env)
    (hreport : ∀ j, j < (rows e).length → e.reportRowFails j = false)
    (i : Nat) (r : Row) (hget : (rows e).get? i = some r) :
    (write_results e (purchasedShipments e)).1.rows.get? i
      = some ((fieldNames e).map
          (getField (updateRow r (purchasedRt e (mkOne e r i)) i))) := by
  have hlen : (rows e).length ≤ (purchasedShipments e).length := by
    rw [purchasedShipments_length]
  rw [write_results_ok e (purchasedShipments e) hlen hreport]
  have hrt : rtAt (purchasedShipments e) i = purchasedRt e (mkOne e r i) := by
    rw [rtAt, purchasedShipments_get? e i r hget]
    rfl
  rw [List.get?_eq_getElem?, List.getElem?_map, List.getElem?_enumFrom,
    ← List.get?_eq_getElem?, hget]
  simp [hrt]

/-- The two appended report cells of a successfully purchased row. -/
lemma report_row_tail (e : Env) (i : Nat) (r : Row) (r0 : Row)
    (rest : List Row) (hrows : rows e = r0 :: rest) :
    (fieldNames e).map (getField (updateRow r (purchasedRt e (mkOne e r i)) i))
      = (sortKeys (r0.map Prod.fst)).map
          (getField (updateRow r (purchasedRt e (mkOne e r i)) i))
        ++ [e.trackingCode i, lnPath i (e.trackingCode i)] := by
  rw [fieldNames_eq e r0 rest hrows, List.map_append]
  congr 1
  have h1 : trackingCsv (purchasedRt e (mkOne e r i)) = e.trackingCode i := rfl
  have h2 : trackingStr (purchasedRt e (mkOne e r i)) = e.trackingCode i := rfl
  simp [updated_getField_TC, updated_getField_LAN, h1, h2]

/-! ### Claim theorems -/

/-- C5: the refund sweep is total: for every shipment sequence, a refund is
attempted for every shipment, in input order, regardless of which refund
calls fail; each shipment's outcome is the pointwise effect of its own
refund call only (so a failure at one index cannot prevent or alter the
attempt at any other index); failures are only logged to the error list and
the sweep always returns instead of propagating an error. -/
theorem C5_refund_sweep_total (e : Env) (shs : List RtShipment) :
    (refund_postage e shs).attempts = shs.map (fun s => s.idx) ∧
      (refund_postage e shs).shipments = shs.map (refundOne e) ∧
      (refund_postage e shs).errorsLogged
        = (shs.filter (fun s => !refundSucceeds e s)).map (fun s => s.idx) := by
  rw [refund_postage_spec]
  exact ⟨rfl, rfl, rfl⟩

/-- C9: the row source is idempotent: reading the same (unchanged) input
file twice yields identical ordered row sequences, and the sequence mirrors
the file's records positionally (same rows, same order, same count). -/
theorem C9_row_source_idempotent (f : CsvFile) :
    iterate_csv f = iterate_csv f ∧
      (iterate_csv f).length = f.records.length ∧
      (∀ i, (iterate_csv f).get? i
        = (f.records.get? i).map (fun rec => f.header.zip rec)) := by
  refine ⟨rfl, by simp [iterate_csv], fun i => ?_⟩
  simp [iterate_csv]

/-- C10: with zero data rows the run still reaches `write_results`, which
opens and truncates the report file but writes neither a header row nor any
data row (report present with `header = none` and no rows), and no stage
fails. -/
theorem C10_empty_input (e : Env) (hA : e.addressOk = true)
    (hP : e.parcelOk = true) (hC : e.csvExists = true)
    (hrec : e.records = []) :
    run e = Except.ok (runPipeline e) ∧
      (runPipeline e).report = some ⟨none, []⟩ ∧
      (runPipeline e).postError = none := by
  have hrows : rows e = [] := by simp [rows, iterate_csv, hrec]
  have hN : (rows e).length = 0 := by rw [hrows]; rfl
  have hsucc := runPipeline_success e
    (fun j hj => absurd hj (by omega)) (fun j hj => absurd hj (by omega))
    (fun j hj => absurd hj (by omega)) (fun j hj => absurd hj (by omega))
  have hwr : write_results e (purchasedShipments e) = (⟨none, []⟩, none) := by
    rw [write_results]
    simp [hrows]
  refine ⟨run_ok e hA hP hC, ?_, ?_⟩
  · rw [hsucc]; simp [hwr]
  · rw [hsucc]

/-- C10 witness: the healthy zero-row environment. -/
theorem C10_empty_input_witness :
    (baseEnv.addressOk = true ∧ baseEnv.parcelOk = true ∧
        baseEnv.csvExists = true ∧ baseEnv.records = []) ∧
      (run baseEnv = Except.ok (runPipeline baseEnv) ∧
        (runPipeline baseEnv).report = some ⟨none, []⟩ ∧
        (runPipeline baseEnv).postError = none) :=
  ⟨⟨rfl, rfl, rfl, rfl⟩, C10_empty_input baseEnv rfl rfl rfl rfl⟩

/-- C6 counterexample: at `eC6` the input path does not exist, yet the run
fails with the origin-address resolution error, not the input-not-found
error — the two carrier resolutions are attempted before the existence
check, so the claim fails at this input as stated. -/
theorem C6_counterexample :
    eC6.csvExists = false ∧
      run eC6 = Except.error RunError.addressError ∧
      RunError.addressError ≠ RunError.inputNotFound :=
  ⟨rfl, rfl, by decide⟩

/-- C6 (amended): the existence check is still made exactly once, before any
shipment is created, but only after the origin-address and parcel
resolutions: whenever both resolutions succeed and the path is missing, the
run fails with the input-not-found error without running the pipeline. -/
theorem C6_amended_check_after_resolution (e : Env) (hA : e.addressOk = true)
    (hP : e.parcelOk = true) (hC : e.csvExists = false) :
    run e = Except.error RunError.inputNotFound := by
  simp [run, hA, hP, hC]

/-- C6 witness: healthy carrier, missing input path. -/
theorem C6_amended_witness :
    (eC6w.addressOk = true ∧ eC6w.parcelOk = true ∧ eC6w.csvExists = false) ∧
      run eC6w = Except.error RunError.inputNotFound :=
  ⟨⟨rfl, rfl, rfl⟩, C6_amended_check_after_resolution eC6w rfl rfl rfl⟩

/-- C8 counterexample: with State field `"x"` the state submitted to the
carrier is `"X"`, a single character — not "exactly two uppercase letters"
— so the normalization claim is false as stated. -/
theorem C8_counterexample :
    ((generate_shipments eC8).get? 0).map (fun s => s.to_address.state)
        = some "X" ∧
      "X".length ≠ 2 :=
  ⟨rfl, by decide⟩

/-- C8 (amended): for every input row, the destination address submits the
first at-most-two characters of the row's State field, uppercased
(`row["State"][:2].upper()` — exactly two uppercase characters only when
the field has at least two), and strict delivery-point verification is
requested. -/
theorem C8_amended_state_normalization (e : Env) (i : Nat) (r : Row)
    (h : (rows e).get? i = some r) :
    ∃ sh, (generate_shipments e).get? i = some sh ∧
      sh.to_address.state = stateNorm (getField r "State") ∧
      sh.to_address.verify_strict = ["delivery"] := by
  refine ⟨mkOne e r i, ?_, rfl, rfl⟩
  rw [generate_shipments, mkRt_get?, h]
  simp

/-- C8 witness: the single-row environment with State `"x"`. -/
theorem C8_amended_witness :
    (rows eC8).get? 0 = some (baseHeader.zip recC8) ∧
      (∃ sh, (generate_shipments eC8).get? 0 = some sh ∧
        sh.to_address.state
          = stateNorm (getField (baseHeader.zip recC8) "State") ∧
        sh.to_address.verify_strict = ["delivery"]) :=
  ⟨rfl, C8_amended_state_normalization eC8 0 (baseHeader.zip recC8) rfl⟩

/-- C2 counterexample: at `eC2` the purchase of shipment 1 raises and the
purchase loop aborts there, yet the run returns normally (`Except.ok`) with
no recorded post-stage error either — the exception is swallowed inside the
purchase stage, so "the run is reported as failed to the caller" is false
as stated. -/
theorem C2_counterexample :
    (runPipeline eC2).purchaseFailedAt = some 1 ∧
      run eC2 = Except.ok (runPipeline eC2) ∧
      (runPipeline eC2).postError = none :=
  ⟨rfl, rfl, rfl⟩

/-- C2 (amended): when purchase or label download first raises at shipment
index k, the purchase loop aborts there and an error message naming the
failing shipment's carrier id is printed, but the exception is caught inside
the purchase stage: the run continues into the note/merge/report stages and
returns normally, so the caller is never told the run failed. -/
theorem C2_amended_abort_swallowed (e : Env) (k : Nat)
    (hA : e.addressOk = true) (hP : e.parcelOk = true) (hC : e.csvExists = true)
    (hk : k < (rows e).length)
    (hpre : ∀ j, j < k → e.buyFails j = false ∧ e.downloadFails j = false)
    (hfail : e.buyFails k = true ∨ e.downloadFails k = true) :
    run e = Except.ok (runPipeline e) ∧
      (runPipeline e).purchaseFailedAt = some k ∧
      (runPipeline e).purchaseErrorShipmentId = some (e.shipmentId k) := by
  have h2 := purchase_postage_fail_at e k hk hpre hfail
  refine ⟨run_ok e hA hP hC, ?_, ?_⟩
  · rw [runPipeline_purchaseFailedAt]; exact h2.1
  · rw [runPipeline_purchaseErrId]; exact h2.2

/-- C2 witness: the two-row environment whose second buy raises. -/
theorem C2_amended_witness :
    (eC2.addressOk = true ∧ 1 < (rows eC2).length ∧ eC2.buyFails 1 = true) ∧
      (run eC2 = Except.ok (runPipeline eC2) ∧
        (runPipeline eC2).purchaseFailedAt = some 1 ∧
        (runPipeline eC2).purchaseErrorShipmentId = some (eC2.shipmentId 1)) :=
  ⟨⟨rfl, by decide, rfl⟩,
    C2_amended_abort_swallowed eC2 1 rfl rfl rfl (by decide)
      (fun j hj => by
        have hj0 : j = 0 := by omega
        subst hj0
        exact ⟨rfl, rfl⟩)
      (Or.inl rfl)⟩

/-- C3: if every purchase succeeded and the post-purchase block (note
rendering, merging or report writing) records a failure, then a refund is
requested for every one of the N shipments and report generation does not
complete: any report that was opened has strictly fewer than N data rows. -/
theorem C3_post_failure_refunds_all (e : Env)
    (hA : e.addressOk = true) (hP : e.parcelOk = true) (hC : e.csvExists = true)
    (hbuy : ∀ j, j < (rows e).length →
      e.buyFails j = false ∧ e.downloadFails j = false)
    (hpost : (runPipeline e).postError.isSome = true) :
    run e = Except.ok (runPipeline e) ∧
      (runPipeline e).postRefundAttempts = List.range (rows e).length ∧
      (∀ rep, (runPipeline e).report = some rep →
        rep.rows.length < (rows e).length) := by
  have hpo := purchase_postage_ok e (generate_shipments e)
    (fun s hs => hbuy s.idx (generate_shipments_mem_idx e s hs))
  have hshape : (purchase_postage e (generate_shipments e)).shipments
      = purchasedShipments e := by rw [hpo]; rfl
  have hpost2 : (postStages e (purchasedShipments e)).postError.isSome = true := by
    have h1 := (runPipeline_post e).1
    rw [h1, hshape] at hpost
    exact hpost
  have herr := postStages_err e (purchasedShipments e) hpost2
  refine ⟨run_ok e hA hP hC, ?_, ?_⟩
  · rw [(runPipeline_post e).2.1, hshape, herr.1, purchasedShipments_idx]
  · intro rep hrep
    rw [(runPipeline_post e).2.2.1, hshape] at hrep
    obtain ⟨hws, hrepeq⟩ := herr.2 rep hrep
    obtain ⟨msg, hmsg⟩ := Option.isSome_iff_exists.1 hws
    rw [hrepeq]
    exact write_results_err e (purchasedShipments e) msg hmsg

/-- C3 witness: one healthy purchase, note rendering raises. -/
theorem C3_witness :
    ((runPipeline eC3).postError.isSome = true ∧ (rows eC3).length = 1) ∧
      (run eC3 = Except.ok (runPipeline eC3) ∧
        (runPipeline eC3).postRefundAttempts = List.range (rows eC3).length ∧
        (∀ rep, (runPipeline eC3).report = some rep →
          rep.rows.length < (rows eC3).length)) :=
  ⟨⟨rfl, rfl⟩,
    C3_post_failure_refunds_all eC3 rfl rfl rfl (fun j hj => ⟨rfl, rfl⟩) rfl⟩

/-- C1 counterexample: at `eC1` (N = 2, buy raises at k = 1) the claim
asserts that only the shipments at indices [0, 1) are refund-attempted and
that no note/merge/report artifact is produced for any index; in fact a
refund is attempted at index 1 as well ([0, 1] is the attempt list), and
note, merge and report artifacts exist for both indices. -/
theorem C1_counterexample :
    (runPipeline eC1).purchaseFailedAt = some 1 ∧
      (runPipeline eC1).purchaseRefundAttempts = [0, 1] ∧
      (runPipeline eC1).noteFiles.length = 2 ∧
      (runPipeline eC1).mergeCalls.length = 2 ∧
      (runPipeline eC1).report.isSome = true ∧
      ¬ ((runPipeline eC1).purchaseRefundAttempts = [0] ∧
          (runPipeline eC1).noteFiles = []) := by
  refine ⟨rfl, rfl, rfl, rfl, rfl, ?_⟩
  intro h
  have h1 : (runPipeline eC1).purchaseRefundAttempts = [0, 1] := rfl
  rw [h1] at h
  exact absurd h.1 (by decide)

/-- C1 (amended): if purchase fails while buying shipment k (k < N, earlier
indices healthy, refunds healthy, later stages healthy), the refund sweep is
invoked on ALL N shipments — a refund is attempted at every index 0..N-1,
not only [0, k); the shipments that reached a purchased state, [0, k), end
refunded while [k, N) stay unpurchased; and the failure is swallowed, so the
pipeline still produces note, merge and report artifacts for every index and
records no error. -/
theorem C1_amended_sweep_all_and_continue (e : Env) (k : Nat)
    (hA : e.addressOk = true) (hP : e.parcelOk = true) (hC : e.csvExists = true)
    (hk : k < (rows e).length)
    (hpre : ∀ j, j < k → e.buyFails j = false ∧ e.downloadFails j = false)
    (hbk : e.buyFails k = true)
    (hrefund : ∀ j, e.refundFails j = false)
    (hrender : ∀ j, j < (rows e).length → e.renderFails j = false)
    (hmerge : ∀ j, j < (rows e).length → e.mergeFails j = false)
    (hreport : ∀ j, j < (rows e).length → e.reportRowFails j = false) :
    run e = Except.ok (runPipeline e) ∧
      (runPipeline e).purchaseFailedAt = some k ∧
      (runPipeline e).purchaseRefundAttempts = List.range (rows e).length ∧
      (runPipeline e).shipments.length = (rows e).length ∧
      (∀ j, j < (rows e).length →
        ((runPipeline e).shipments.get? j).map RtShipment.pstate
          = some (if j < k then PState.refunded else PState.unpurchased)) ∧
      (runPipeline e).noteFiles.length = (rows e).length ∧
      (runPipeline e).mergeCalls.length = (rows e).length ∧
      (∃ rep, (runPipeline e).report = some rep ∧
        rep.rows.length = (rows e).length) ∧
      (runPipeline e).postError = none := by
  obtain ⟨h1, _h2, h3, h4, h5, h6, h7, h8, h9⟩ :=
    runPipeline_buyFail e k hk hpre hbk hrefund hrender hmerge hreport
  exact ⟨run_ok e hA hP hC, h1, h3, h4, h5, h6, h7, h8, h9⟩

/-- C1 witness: the two-row environment whose second buy raises. -/
theorem C1_amended_witness :
    (1 < (rows eC1).length ∧ eC1.buyFails 1 = true) ∧
      ((runPipeline eC1).purchaseRefundAttempts = List.range (rows eC1).length ∧
        (runPipeline eC1).noteFiles.length = (rows eC1).length ∧
        (runPipeline eC1).postError = none) := by
  obtain ⟨hr, hfa, hatt, hlen, hst, hnl, hml, hrep, hpe⟩ :=
    C1_amended_sweep_all_and_continue eC1 1 rfl rfl rfl (by decide)
      (fun j hj => by
        have hj0 : j = 0 := by omega
        subst hj0
        exact ⟨rfl, rfl⟩)
      rfl (fun j => rfl) (fun j hj => rfl) (fun j hj => rfl) (fun j hj => rfl)
  exact ⟨⟨by decide, rfl⟩, hatt, hnl, hpe⟩

/-- C4: positional correlation on a fully successful run: the shipment
sequence is index-aligned with the input rows (the i-th shipment is built
from the i-th row and purchased with the i-th tracking code), the report has
one row per input row, and the i-th report row ends with the i-th shipment's
tracking code and merged-artifact path — no stage reorders, filters or
skips indices. -/
theorem C4_positional_correlation (e : Env)
    (hA : e.addressOk = true) (hP : e.parcelOk = true) (hC : e.csvExists = true)
    (hbuy : ∀ j, j < (rows e).length →
      e.buyFails j = false ∧ e.downloadFails j = false)
    (hrender : ∀ j, j < (rows e).length → e.renderFails j = false)
    (hmerge : ∀ j, j < (rows e).length → e.mergeFails j = false)
    (hreport : ∀ j, j < (rows e).length → e.reportRowFails j = false) :
    run e = Except.ok (runPipeline e) ∧
      (runPipeline e).shipments.length = (rows e).length ∧
      (∃ rep, (runPipeline e).report = some rep ∧
        rep.rows.length = (rows e).length ∧
        (∀ i r, (rows e).get? i = some r →
          ∃ sh, (runPipeline e).shipments.get? i = some sh ∧
            sh = purchasedRt e (mkOne e r i) ∧
            sh.tracking_code = some (e.trackingCode i) ∧
            (∃ pr, rep.rows.get? i
              = some (pr ++ [e.trackingCode i, lnPath i (e.trackingCode i)])))) := by
  have hsucc := runPipeline_success e hbuy hrender hmerge hreport
  have hwlen : (rows e).length ≤ (purchasedShipments e).length := by
    rw [purchasedShipments_length]
  refine ⟨run_ok e hA hP hC, ?_, ?_⟩
  · rw [hsucc]; exact purchasedShipments_length e
  · refine ⟨(write_results e (purchasedShipments e)).1, by rw [hsucc], ?_, ?_⟩
    · rw [write_results_ok e (purchasedShipments e) hwlen hreport]
      simp [List.enumFrom_length]
    · intro i r hget
      refine ⟨purchasedRt e (mkOne e r i), ?_, rfl, rfl, ?_⟩
      · rw [hsucc]; exact purchasedShipments_get? e i r hget
      · cases hrows : rows e with
        | nil => rw [hrows] at hget; simp at hget
        | cons r0 rest =>
          refine ⟨(sortKeys (r0.map Prod.fst)).map
            (getField (updateRow r (purchasedRt e (mkOne e r i)) i)), ?_⟩
          rw [write_results_success_row e hreport i r hget,
            report_row_tail e i r r0 rest hrows]

/-- C4 witness: two healthy rows. -/
theorem C4_witness :
    (eC4.addressOk = true ∧ (rows eC4).length = 2) ∧
      (run eC4 = Except.ok (runPipeline eC4) ∧
        (runPipeline eC4).shipments.length = (rows eC4).length) := by
  have h := C4_positional_correlation eC4 rfl rfl rfl
    (fun j hj => ⟨rfl, rfl⟩) (fun j hj => rfl) (fun j hj => rfl) (fun j hj => rfl)
  exact ⟨⟨rfl, rfl⟩, h.1, h.2.1⟩

/-- C7: on a fully successful run over a well-formed input (records cover
the header, no input column named like the two appended ones), the report
has exactly N data rows under the header `sorted field names ++ [Tracking
Code, Label And Note]`, and the i-th data row consists of the i-th input
row's field values in sorted field-name order followed by the i-th tracking
code and the i-th merged-artifact path. -/
theorem C7_report_content (e : Env)
    (hA : e.addressOk = true) (hP : e.parcelOk = true) (hC : e.csvExists = true)
    (hbuy : ∀ j, j < (rows e).length →
      e.buyFails j = false ∧ e.downloadFails j = false)
    (hrender : ∀ j, j < (rows e).length → e.renderFails j = false)
    (hmerge : ∀ j, j < (rows e).length → e.mergeFails j = false)
    (hreport : ∀ j, j < (rows e).length → e.reportRowFails j = false)
    (hrecl : ∀ rec ∈ e.records, rec.length = e.header.length)
    (hTC : "Tracking Code" ∉ e.header)
    (hLAN : "Label And Note" ∉ e.header)
    (hne : e.records ≠ []) :
    run e = Except.ok (runPipeline e) ∧
      (∃ rep, (runPipeline e).report = some rep ∧
        rep.header
          = some (sortKeys e.header ++ ["Tracking Code", "Label And Note"]) ∧
        rep.rows.length = (rows e).length ∧
        (∀ i r, (rows e).get? i = some r →
          rep.rows.get? i = some ((sortKeys e.header).map (getField r)
            ++ [e.trackingCode i, lnPath i (e.trackingCode i)]))) := by
  have hsucc := runPipeline_success e hbuy hrender hmerge hreport
  have hwlen : (rows e).length ≤ (purchasedShipments e).length := by
    rw [purchasedShipments_length]
  obtain ⟨rc0, rrest, hrecs⟩ : ∃ a b, e.records = a :: b := by
    cases hr : e.records with
    | nil => exact absurd hr hne
    | cons a b => exact ⟨a, b, rfl⟩
  have hrows : rows e
      = (e.header.zip rc0) :: rrest.map (fun rec => e.header.zip rec) := by
    simp [rows, iterate_csv, hrecs]
  have hfst : (e.header.zip rc0).map Prod.fst = e.header :=
    List.map_fst_zip _ _
      (by rw [hrecl rc0 (by rw [hrecs]; exact List.mem_cons_self _ _)])
  have hmemsort : ∀ f ∈ sortKeys e.header,
      f ≠ "Tracking Code" ∧ f ≠ "Label And Note" := by
    intro f hf
    have hfh : f ∈ e.header := ((List.perm_insertionSort _ _).mem_iff).1 hf
    exact ⟨fun hc => hTC (hc ▸ hfh), fun hc => hLAN (hc ▸ hfh)⟩
  refine ⟨run_ok e hA hP hC,
    (write_results e (purchasedShipments e)).1, by rw [hsucc], ?_, ?_, ?_⟩
  · rw [write_results_ok e (purchasedShipments e) hwlen hreport]
    show ((rows e).head?.map (fun _ => fieldNames e)) = _
    rw [hrows]
    simp only [List.head?_cons, Option.map_some']
    rw [fieldNames_eq e _ _ hrows, hfst]
  · rw [write_results_ok e (purchasedShipments e) hwlen hreport]
    simp [List.enumFrom_length]
  · intro i r hget
    have hcongr : (sortKeys e.header).map
        (getField (updateRow r (purchasedRt e (mkOne e r i)) i))
        = (sortKeys e.header).map (getField r) := by
      refine List.map_congr_left ?_
      intro f hf
      exact updated_getField_other r _ i f (hmemsort f hf).1 (hmemsort f hf).2
    rw [write_results_success_row e hreport i r hget,
      report_row_tail e i r _ _ hrows, hfst, hcongr]

/-- C7 witness: two healthy rows with the standard header. -/
theorem C7_witness :
    (eC7.records ≠ [] ∧ "Tracking Code" ∉ eC7.header) ∧
      (run eC7 = Except.ok (runPipeline eC7) ∧
        ∃ rep, (runPipeline eC7).report = some rep ∧
          rep.header
            = some (sortKeys eC7.header ++ ["Tracking Code", "Label And Note"]) ∧
          rep.rows.length = (rows eC7).length) := by
  have h := C7_report_content eC7 rfl rfl rfl (fun j hj => ⟨rfl, rfl⟩)
    (fun j hj => rfl) (fun j hj => rfl) (fun j hj => rfl)
    (by decide) (by decide) (by decide) (by decide)
  obtain ⟨h1, rep, h2, h3, h4, _h5⟩ := h
  exact ⟨⟨by decide, by decide⟩, h1, rep, h2, h3, h4⟩

end Postage
